import Mathlib

/-!
# Verification of the pixel-group batching and dynamic-sizing engine

A shallow embedding of `src/three/pixel-manager.js` (class `PixelManager`):
the batch-group hash assignment, the single build pass over the pixel grid,
the per-frame clamped-size computation with its uniform update, the settle-time
geometry rewrite, and the bidirectional world/grid coordinate mapping.

Numbers are modelled as exact rationals `ℚ` (the source works in JS doubles;
every arithmetic operation the claims touch is exact there as well).
JS-specific behaviour is modelled explicitly where it matters:
32-bit coercion in the `>>` operator, truncated remainder for `%`,
`undefined` array reads (as `Option`/`crash`), and `NaN` floats (`F32.nan`).
-/

/-! ## Configuration constants (source lines 11-17) -/

def PIXEL_SIZE : ℚ := 10

def MAX_PIXEL_SIZE_PX : ℚ := 128

def N_GROUPS : ℕ := 3

def MAGIC_NUMBER : ℕ := 551

def centerRow : ℕ := 132

def centerCol : ℕ := 76

/-- Source `getNGroups` (line 20): more groups for white (`colorIndex === 0`). -/
def getNGroups (colorIndex : ℕ) : ℕ :=
  if colorIndex = 0 then N_GROUPS * 3 else N_GROUPS

/-! ## Group assignment (addColorVertex, lines 58-68)

The JS expression `calc >> MAGIC_NUMBER` first coerces `calc` with `ToInt32`,
masks the shift count to 5 bits (`551 & 31 = 7`), then performs an arithmetic
(sign-propagating) right shift, i.e. floor division by `2^7`.  The JS `%`
operator is the truncated remainder (sign follows the dividend). -/

/-- JS `ToInt32`: reduce modulo `2^32` into `[-2^31, 2^31)`. -/
def toInt32 (n : ℤ) : ℤ :=
  let m := n % 4294967296
  if m < 2147483648 then m else m - 4294967296

/-- The effective shift count of `>> MAGIC_NUMBER`: JS masks it to 5 bits. -/
def jsShiftCount : ℕ := MAGIC_NUMBER % 32

/-- The group number computed in `addColorVertex` (lines 60-61):
`calc = rowIndex + colIndex + rowIndex * rowIndex * colIndex`, then
`(calc >> MAGIC_NUMBER) % (getNGroups(colorIndex) - 1)` with JS semantics. -/
def groupNumber (colorIndex row col : ℕ) : ℤ :=
  let hashBase : ℤ := (row : ℤ) + (col : ℤ) + (row : ℤ) * (row : ℤ) * (col : ℤ)
  Int.tmod (Int.fdiv (toInt32 hashBase) (2 ^ jsShiftCount)) ((getNGroups colorIndex : ℤ) - 1)

/-- The batch `(colorIndex, subGroup)` a cell's quad is pushed into
(lines 63-68): the hash-selected group, except that the centered white pixel
`(centerRow, centerCol)` is forced into batch `(0, 0)`. -/
def targetBatch (colorIndex row col : ℕ) : ℕ × ℤ :=
  let g := groupNumber colorIndex row col
  if row = centerRow ∧ col = centerCol then (0, 0) else (colorIndex, g)

/-! ## Coordinate mapping (lines 231-246) -/

/-- Result of a JS method call: either a thrown `TypeError` (`crash`, from
reading a property of `undefined`) or a returned value. -/
inductive JsResult (α : Type) where
  | crash : JsResult α
  | ok : α → JsResult α
deriving DecidableEq

/-- The record returned by `getPixelFromCoordinates`.  `colorIndex = none`
models the `NaN` produced by `parseInt(undefined, 16)` when the column
lookup falls off the row array. -/
structure Pixel where
  row : ℤ
  col : ℤ
  colorIndex : Option ℕ
deriving DecidableEq

/-- Source `getCoordinatesFromPixel` (lines 242-246): exact inverse affine map.
`this.pixelSize` is `PIXEL_SIZE = 10` for the instance's whole lifetime. -/
def getCoordinatesFromPixel (row col : ℤ) : ℚ × ℚ :=
  (((row : ℚ) - (centerRow : ℚ)) * PIXEL_SIZE,
   ((col : ℚ) - (centerCol : ℚ)) * PIXEL_SIZE)

/-- Source `getPixelFromCoordinates` (lines 231-240).  The grid is `data.json`,
a row-major list of rows of palette indices.  `data[row]` with `row`
outside `[0, nRows)` is `undefined`, so the subsequent `[col]` access throws
(`crash`); an out-of-range `col` on a valid row yields `undefined`, which
`parseInt` turns into `NaN` (`colorIndex = none`). -/
def getPixelFromCoordinates (grid : List (List ℕ)) (x y : ℚ) : JsResult Pixel :=
  let row : ℤ := (centerRow : ℤ) + ⌊x / PIXEL_SIZE + 1/2⌋
  let col : ℤ := (centerCol : ℤ) + ⌊y / PIXEL_SIZE + 1/2⌋
  if 0 ≤ row ∧ row < (grid.length : ℤ) then
    let rowList := grid.getD row.toNat []
    let colorIndex : Option ℕ :=
      if 0 ≤ col then rowList[col.toNat]? else none
    JsResult.ok ⟨row, col, colorIndex⟩
  else
    JsResult.crash

/-! ## Dynamic sizing (getSize, lines 149-166)

`Math.tan(vFOV / 2)` is transcendental; the embedding abstracts it as the
parameter `tanHalfVFov` standing for `tan((fov * π / 180) / 2)`.  All the
remaining arithmetic of `getSize` is carried out exactly. -/

/-- Source `getSize` (lines 149-166): clamp the nominal pixel size to the world-space
height of a `MAX_PIXEL_SIZE_PX`-device-pixel footprint at the group's depth.
`zoom` is `camera.position.z`, `groupZ` is `pixelGroup.position.z`,
`innerHeight` is `window.innerHeight`. -/
def getSize (tanHalfVFov zoom groupZ innerHeight : ℚ) : ℚ :=
  let distanceOffset : ℚ := 16
  let maxPixelFraction := MAX_PIXEL_SIZE_PX / innerHeight
  let height := 2 * tanHalfVFov * (zoom - groupZ / distanceOffset)
  let maxSize := maxPixelFraction * height
  min PIXEL_SIZE maxSize

/-! ## Per-frame uniform update (updatePixelSize, lines 172-182) -/

/-- The `size` uniform of a batch's shader material: its numeric value and
its `needsUpdate` dirty flag. -/
structure SizeUniform where
  value : ℚ
  needsUpdate : Bool
deriving DecidableEq

/-- The guard `size !== pixelGroup.material.uniforms.size` (line 177):
a JS strict inequality between a Number and the uniform wrapper *object*.
Operands of different types are never strictly equal, so the test is
always `true`, whatever the two sizes are. -/
def jsNumStrictNeqObject (_size : ℚ) (_uniform : SizeUniform) : Bool := true

/-- Body of the `updatePixelSize` loop (lines 174-180) for one batch:
given the freshly computed clamped size and the current uniform, produce
the uniform after the update step. -/
def updatePixelSize (computed : ℚ) (u : SizeUniform) : SizeUniform :=
  if jsNumStrictNeqObject computed u then
    { value := computed, needsUpdate := true }
  else
    u

/-! ## Batch buffers and the build pass (constructor, lines 36-115) -/

/-- An entry of a `Float32Array` attribute buffer: a real number or `NaN`
(the value stored when JS writes `undefined` into the array). -/
inductive F32 where
  | nan : F32
  | val : ℚ → F32
deriving DecidableEq

/-- JS addition on buffer entries: `NaN` propagates. -/
def F32.add : F32 → F32 → F32
  | F32.val a, F32.val b => F32.val (a + b)
  | _, _ => F32.nan

/-- JS subtraction on buffer entries: `NaN` propagates. -/
def F32.sub : F32 → F32 → F32
  | F32.val a, F32.val b => F32.val (a - b)
  | _, _ => F32.nan

/-- A 3-vector, as the plain `{x, y, z}` objects of the source. -/
structure Vec3 where
  x : ℚ
  y : ℚ
  z : ℚ
deriving DecidableEq

/-- One batch's accumulated buffers (lines 38-42): flat position floats
(stride 3), flat center floats (stride 3), and per-vertex corner-index
tags (stride 1). -/
structure BufferData where
  positions : List F32
  centers : List F32
  indices : List ℕ
deriving DecidableEq

/-- Corner `i` of `THREE.PlaneGeometry(s, s)` translated to center `v`
(lines 70-71).  The legacy plane geometry's vertex order is
0 = top-left, 1 = top-right, 2 = bottom-left, 3 = bottom-right, each at
half-size offsets from the center; this is the layout the settle-time
rewrite in `updateBufferGeometry` (lines 204-216) reproduces. -/
def planeCorner (s : ℚ) (v : Vec3) : ℕ → Vec3
  | 0 => ⟨v.x - s / 2, v.y + s / 2, v.z⟩
  | 1 => ⟨v.x + s / 2, v.y + s / 2, v.z⟩
  | 2 => ⟨v.x - s / 2, v.y - s / 2, v.z⟩
  | _ => ⟨v.x + s / 2, v.y - s / 2, v.z⟩

/-- One iteration of `geometry.faces.forEach` (lines 73-90): push the three
corner positions of face `(a, b, c)`, the quad center once per vertex, and
the three corner-index tags. -/
def pushFace (s : ℚ) (v : Vec3) (a b c : ℕ) (g : BufferData) : BufferData :=
  let pa := planeCorner s v a
  let pb := planeCorner s v b
  let pc := planeCorner s v c
  { positions := g.positions ++
      [F32.val pa.x, F32.val pa.y, F32.val pa.z,
       F32.val pb.x, F32.val pb.y, F32.val pb.z,
       F32.val pc.x, F32.val pc.y, F32.val pc.z],
    centers := g.centers ++
      [F32.val v.x, F32.val v.y, F32.val v.z,
       F32.val v.x, F32.val v.y, F32.val v.z,
       F32.val v.x, F32.val v.y, F32.val v.z],
    indices := g.indices ++ [a, b, c] }

/-- The whole `faces.forEach` loop of `addColorVertex` (lines 73-90): the
legacy 1×1 `PlaneGeometry` has the two faces `(0, 2, 1)` and `(2, 3, 1)`. -/
def pushQuad (s : ℚ) (v : Vec3) (g : BufferData) : BufferData :=
  pushFace s v 2 3 1 (pushFace s v 0 2 1 g)

/-- The collection `this.bufferGeometries`, keyed by
`(colorIndex, groupNumber)`. -/
abbrev BatchMap : Type := ℕ × ℤ → BufferData

/-- The empty initial batch collection (lines 36-43): every batch starts
with empty position/center/index lists. -/
def emptyBatches : BatchMap := fun _ => ⟨[], [], []⟩

/-- Source `addColorVertex` (lines 58-91): select the target batch (hash plus
center-pixel override) and append one quad to it. -/
def addColorVertex (colorIndex row col : ℕ) (v : Vec3) (m : BatchMap) : BatchMap :=
  let key := targetBatch colorIndex row col
  fun k => if k = key then pushQuad PIXEL_SIZE v (m k) else m k

/-- Source `offsetRow` (line 97). -/
def offsetRow (nRows : ℕ) : ℚ := (nRows : ℚ) * PIXEL_SIZE / 2 - 1/2 * PIXEL_SIZE

/-- Source `offSetCol` (line 98). -/
def offSetCol (nCols : ℕ) : ℚ := (nCols : ℚ) * PIXEL_SIZE / 2 + 7 * PIXEL_SIZE

/-- The world-space anchor `vertex` of cell `(row, col)` (lines 106-110). -/
def anchorVertex (nRows nCols row col : ℕ) : Vec3 :=
  ⟨(row : ℚ) * PIXEL_SIZE - offsetRow nRows,
   (col : ℚ) * PIXEL_SIZE - offSetCol nCols,
   0⟩

/-- The palette index of cell `(row, col)`: `parseInt(data[row][col], 16)`. -/
def gridColor (grid : List (List ℕ)) (row col : ℕ) : ℕ :=
  (grid.getD row []).getD col 0

/-- Source `addColorVertices` (lines 93-115): the single build pass over the whole
grid, row-major; `nRows = data.length`, `nCols = data[0].length`
(lines 24-25). -/
def addColorVertices (grid : List (List ℕ)) (m : BatchMap) : BatchMap :=
  let nRows := grid.length
  let nCols := (grid.headD []).length
  (List.range nRows).foldl (fun acc row =>
    (List.range nCols).foldl (fun acc2 col =>
      addColorVertex (gridColor grid row col) row col
        (anchorVertex nRows nCols row col) acc2) acc) m

/-- The grid dimensions of `data.json`.

Modelled from the spec: `data.json` (the source image grid) is not part of
the covered source; the spec states the offsets `offsetRow`, `offSetCol` are
"fixed constants chosen so a specific cell renders at the world origin (the
designated center pixel)" `(centerRow, centerCol) = (132, 76)`.  With the
offset formulas of lines 97-98 this determines the dimensions uniquely:
`nRows * 10 / 2 - 5 = 132 * 10` gives `nRows = 265`, and
`nCols * 10 / 2 + 70 = 76 * 10` gives `nCols = 138`. -/
def nRows : ℕ := 265

/-- The number of grid columns of `data.json`; see `nRows` for how it is
modelled from the spec. -/
def nCols : ℕ := 138

/-! ## Settle-time geometry rewrite (updateBufferGeometry, lines 189-223) -/

/-- The `if`/`else if` chain of lines 204-216 for one vertex: from the
current clamped `size`, the vertex's stored center `(cx, cy)` and its
corner-index tag, compute the new `(x, y)`.  A tag outside `0..3` (or an
out-of-range read, `none`) leaves the JS locals `x`, `y` `undefined`, which
the `Float32Array` stores as `NaN`. -/
def commitXY (size : ℚ) (cx cy : F32) (tag : Option ℕ) : F32 × F32 :=
  if tag = some 0 then (cx.sub (F32.val (1/2 * size)), cy.add (F32.val (1/2 * size)))
  else if tag = some 1 then (cx.add (F32.val (1/2 * size)), cy.add (F32.val (1/2 * size)))
  else if tag = some 2 then (cx.sub (F32.val (1/2 * size)), cy.sub (F32.val (1/2 * size)))
  else if tag = some 3 then (cx.add (F32.val (1/2 * size)), cy.sub (F32.val (1/2 * size)))
  else (F32.nan, F32.nan)

/-- The loop body of `updateBufferGeometry` for one batch (lines 194-221):
for each vertex `j` (`j < positions.length / 3`), overwrite
`positions[3j]` and `positions[3j + 1]` from the center buffer at
`3j, 3j + 1` and the tag at `j`; `positions[3j + 2]` (the z component),
the center buffer and the tag buffer are not written. -/
def updateBufferGeometry (size : ℚ) (b : BufferData) : BufferData :=
  { b with positions :=
      (List.range b.positions.length).map fun k =>
        let j := k / 3
        let xy := commitXY size (b.centers.getD (3 * j) F32.nan)
          (b.centers.getD (3 * j + 1) F32.nan) b.indices[j]?
        if k % 3 = 0 then xy.1
        else if k % 3 = 1 then xy.2
        else b.positions.getD k F32.nan }

/-- The lockstep length invariant of one batch's buffers: position and center
float counts agree, are three per vertex with one tag per vertex, and the
tags form whole triangles. -/
def lockstep (b : BufferData) : Prop :=
  b.positions.length = b.centers.length ∧
  b.positions.length = 3 * b.indices.length ∧
  b.indices.length % 3 = 0

/-! ## Theorems -/

/-- C1: the claim says `updatePixelSize` overwrites the size uniform and
marks it dirty *iff* the computed size differs from the stored value, leaving
it untouched when equal.  The code's guard `size !== uniforms.size` compares
the number against the wrapper object, so it is always true: even when the
computed size `10` equals the stored value `10` of a clean uniform, the
uniform is reassigned and marked dirty — and this happens on every call,
whatever the values. -/
theorem updatePixelSize_always_overwrites :
    updatePixelSize 10 ⟨10, false⟩ = ⟨10, true⟩ ∧
    updatePixelSize 10 ⟨10, false⟩ ≠ ⟨10, false⟩ ∧
    ∀ computed u, updatePixelSize computed u = ⟨computed, true⟩ := by
  refine ⟨by decide, by decide, fun computed u => rfl⟩

/-- C3: `getSize` equals `min` of the nominal pixel size and
`maxWorldSize = (MAX_PIXEL_SIZE_PX / innerHeight) * 2 * tan(vFOV/2) *
(zoom - groupZ / 16)` (with `tanHalfVFov` standing for `tan(vFOV/2)` and
`distanceOffset = 16`); the result never exceeds the nominal pixel size, and
is nonnegative whenever the computed world height is positive (and the
viewport height is a positive pixel count). -/
theorem getSize_clamps (t zoom z h : ℚ) :
    getSize t zoom z h =
      min PIXEL_SIZE (MAX_PIXEL_SIZE_PX / h * (2 * t * (zoom - z / 16))) ∧
    getSize t zoom z h ≤ PIXEL_SIZE ∧
    (0 < 2 * t * (zoom - z / 16) → 0 < h → 0 ≤ getSize t zoom z h) := by
  refine ⟨rfl, min_le_left _ _, fun hheight hviewport => ?_⟩
  have h1 : (0 : ℚ) ≤ PIXEL_SIZE := by norm_num [PIXEL_SIZE]
  have h2 : (0 : ℚ) ≤ MAX_PIXEL_SIZE_PX / h * (2 * t * (zoom - z / 16)) := by
    have : (0 : ℚ) ≤ MAX_PIXEL_SIZE_PX / h := by
      apply div_nonneg _ hviewport.le
      norm_num [MAX_PIXEL_SIZE_PX]
    exact mul_nonneg this hheight.le
  exact le_min h1 h2

/-- Witness for `getSize_clamps` at the spec's scenario numbers
(`zoom = 30`, `groupZ = 0`, `innerHeight = 900`, a positive tangent). -/
theorem getSize_clamps_witness :
    (0 : ℚ) < 2 * 1 * (30 - 0 / 16) ∧ (0 : ℚ) < 900 ∧
    0 ≤ getSize 1 30 0 900 :=
  ⟨by norm_num, by norm_num,
    (getSize_clamps 1 30 0 900).2.2 (by norm_num) (by norm_num)⟩

/-- C8: the designated center cell `(centerRow, centerCol)` is always routed
to batch `(0, 0)`, whatever its color index and whatever the hash computes;
every other cell goes to the batch `(colorIndex, groupNumber)` chosen by the
hash. -/
theorem targetBatch_center_forced :
    (∀ colorIndex, targetBatch colorIndex centerRow centerCol = (0, 0)) ∧
    (∀ colorIndex row col, ¬(row = centerRow ∧ col = centerCol) →
      targetBatch colorIndex row col = (colorIndex, groupNumber colorIndex row col)) := by
  constructor
  · intro colorIndex
    simp [targetBatch]
  · intro colorIndex row col hne
    simp only [targetBatch, if_neg hne]

/-- Witness for `targetBatch_center_forced` at the non-center cell `(3, 5)`
with color index `7`. -/
theorem targetBatch_center_forced_witness :
    ¬((3 : ℕ) = centerRow ∧ (5 : ℕ) = centerCol) ∧
    targetBatch 7 3 5 = (7, groupNumber 7 3 5) :=
  ⟨by decide, targetBatch_center_forced.2 7 3 5 (by decide)⟩

/-- Rounding helper: multiplying an integer by `PIXEL_SIZE`, dividing back and
applying the `floor(· + 1/2)` rounding rule recovers the integer exactly. -/
theorem floor_mul_div_add_half (n : ℤ) :
    ⌊((n : ℚ) * PIXEL_SIZE) / PIXEL_SIZE + 1/2⌋ = n := by
  have hps : (PIXEL_SIZE : ℚ) ≠ 0 := by norm_num [PIXEL_SIZE]
  rw [mul_div_assoc, div_self hps, mul_one, add_comm, Int.floor_add_int]
  norm_num

/-- C2: the world point produced by `getCoordinatesFromPixel` for an in-bounds
`(row, col)` maps back through `getPixelFromCoordinates` to exactly that
`(row, col)` (with the grid cell's own color looked up). -/
theorem pixel_world_roundtrip (grid : List (List ℕ)) (row col : ℤ)
    (h1 : 0 ≤ row) (h2 : row < (grid.length : ℤ))
    (h3 : 0 ≤ col) :
    getPixelFromCoordinates grid (getCoordinatesFromPixel row col).1
      (getCoordinatesFromPixel row col).2 =
    JsResult.ok ⟨row, col, (grid.getD row.toNat [])[col.toNat]?⟩ := by
  have hcastr : ((row : ℚ) - (centerRow : ℚ)) = ((row - (centerRow : ℤ) : ℤ) : ℚ) := by
    push_cast
    ring
  have hcastc : ((col : ℚ) - (centerCol : ℚ)) = ((col - (centerCol : ℤ) : ℤ) : ℚ) := by
    push_cast
    ring
  have hrow : (centerRow : ℤ) +
      ⌊(((row : ℚ) - (centerRow : ℚ)) * PIXEL_SIZE) / PIXEL_SIZE + 1/2⌋ = row := by
    rw [hcastr, floor_mul_div_add_half]
    omega
  have hcol : (centerCol : ℤ) +
      ⌊(((col : ℚ) - (centerCol : ℚ)) * PIXEL_SIZE) / PIXEL_SIZE + 1/2⌋ = col := by
    rw [hcastc, floor_mul_div_add_half]
    omega
  simp only [getPixelFromCoordinates, getCoordinatesFromPixel, hrow, hcol]
  rw [if_pos ⟨h1, h2⟩, if_pos h3]

/-- Witness for `pixel_world_roundtrip` on the one-cell grid `[[7]]` at
`(row, col) = (0, 0)`. -/
theorem pixel_world_roundtrip_witness :
    getPixelFromCoordinates [[7]] (getCoordinatesFromPixel 0 0).1
      (getCoordinatesFromPixel 0 0).2 =
    JsResult.ok ⟨0, 0, (([[7]] : List (List ℕ)).getD (Int.toNat 0) [])[Int.toNat 0]?⟩ :=
  pixel_world_roundtrip [[7]] 0 0 (by decide) (by decide) (by decide)

/-- C6: the claim says a world coordinate resolving outside the grid extents
yields an explicit out-of-bounds result.  The code has no bounds check:
`(0, 0)` on a 1×1 grid resolves to `(row, col) = (132, 76)`, where
`data[132]` is `undefined` and the `[76]` access throws a `TypeError`
(`crash`); and `(-1320, 0)` resolves to `(row, col) = (0, 76)`, where the
column read is `undefined` and the returned `colorIndex` is the garbage
`NaN` (`none`), not an error result. -/
theorem getPixelFromCoordinates_out_of_bounds :
    getPixelFromCoordinates [[0]] 0 0 = JsResult.crash ∧
    getPixelFromCoordinates [[0]] (-1320) 0 = JsResult.ok ⟨0, 76, none⟩ := by
  have hz : ((0 : ℚ) / PIXEL_SIZE + 1/2) = 1/2 := by norm_num
  have hneg : ((-1320 : ℚ) / PIXEL_SIZE + 1/2) = -132 + 1/2 := by
    norm_num [PIXEL_SIZE]
  constructor
  · simp only [getPixelFromCoordinates, hz, centerRow, centerCol]
    norm_num
  · simp only [getPixelFromCoordinates, hz, hneg, centerRow, centerCol]
    norm_num

/-- C7 counterexample: at `colorIndex = 0`, `row = 46341`, `col = 1` the hash
base `46341 + 1 + 46341² · 1 = 2147534623` exceeds `2^31 - 1`, so the JS
`>>` operator's `ToInt32` coercion makes it negative and the truncated `%`
returns `-2`: the group index is *not* in `[0, subGroupCount - 1]`. -/
theorem groupNumber_range_cex :
    groupNumber 0 46341 1 = -2 ∧
    ¬(0 ≤ groupNumber 0 46341 1 ∧
      groupNumber 0 46341 1 ≤ (getNGroups 0 : ℤ) - 1) := by
  constructor
  · decide
  · decide

/-- C7 amended: whenever the hash base `row + col + row² · col` stays below
`2^31` (as it does for every realistic image grid), the group index computed
in `addColorVertex` lies in `[0, getNGroups(colorIndex) - 1]`. -/
theorem groupNumber_in_range (colorIndex row col : ℕ)
    (h : (row : ℤ) + (col : ℤ) + (row : ℤ) * (row : ℤ) * (col : ℤ) < 2 ^ 31) :
    0 ≤ groupNumber colorIndex row col ∧
    groupNumber colorIndex row col ≤ (getNGroups colorIndex : ℤ) - 1 := by
  have hb : (0 : ℤ) ≤ (row : ℤ) + (col : ℤ) + (row : ℤ) * (row : ℤ) * (col : ℤ) := by
    positivity
  have h31 : ((2 : ℤ) ^ 31 : ℤ) = 2147483648 := by norm_num
  rw [h31] at h
  have ht32 : toInt32 ((row : ℤ) + (col : ℤ) + (row : ℤ) * (row : ℤ) * (col : ℤ)) =
      (row : ℤ) + (col : ℤ) + (row : ℤ) * (row : ℤ) * (col : ℤ) := by
    simp only [toInt32]
    rw [Int.emod_eq_of_lt hb (by omega)]
    rw [if_pos (by omega)]
  have hdpos : (0 : ℤ) < (getNGroups colorIndex : ℤ) - 1 := by
    simp only [getNGroups, N_GROUPS]
    split <;> norm_num
  have hfd : 0 ≤ Int.fdiv
      (toInt32 ((row : ℤ) + (col : ℤ) + (row : ℤ) * (row : ℤ) * (col : ℤ)))
      (2 ^ jsShiftCount) := by
    apply Int.fdiv_nonneg _ (by positivity)
    rw [ht32]
    exact hb
  simp only [groupNumber]
  constructor
  · exact Int.tmod_nonneg _ hfd
  · have hlt := Int.tmod_lt_of_pos
      (Int.fdiv (toInt32 ((row : ℤ) + (col : ℤ) + (row : ℤ) * (row : ℤ) * (col : ℤ)))
        (2 ^ jsShiftCount)) hdpos
    omega

/-- Witness for `groupNumber_in_range` at `(colorIndex, row, col) = (0, 3, 5)`
(hash base `53`). -/
theorem groupNumber_in_range_witness :
    (53 : ℤ) < 2 ^ 31 ∧
    (0 ≤ groupNumber 0 3 5 ∧ groupNumber 0 3 5 ≤ (getNGroups 0 : ℤ) - 1) :=
  ⟨by norm_num, groupNumber_in_range 0 3 5 (by norm_num)⟩

/-- C9: with the grid dimensions of `data.json` (265 × 138, see `nRows`),
the build pass's anchor for the designated center cell
`(centerRow, centerCol) = (132, 76)` is the world origin, and for every cell
the anchor agrees exactly with the point `getCoordinatesFromPixel` returns
for that `(row, col)`. -/
theorem anchor_matches_worldFromPixel :
    anchorVertex nRows nCols centerRow centerCol = ⟨0, 0, 0⟩ ∧
    ∀ row col : ℕ,
      (anchorVertex nRows nCols row col).x = (getCoordinatesFromPixel row col).1 ∧
      (anchorVertex nRows nCols row col).y = (getCoordinatesFromPixel row col).2 ∧
      (anchorVertex nRows nCols row col).z = 0 := by
  constructor
  · simp only [anchorVertex, offsetRow, offSetCol, nRows, nCols, centerRow, centerCol,
      PIXEL_SIZE]
    norm_num
  · intro row col
    refine ⟨?_, ?_, rfl⟩
    · simp only [anchorVertex, offsetRow, getCoordinatesFromPixel, nRows, centerRow,
        PIXEL_SIZE]
      push_cast
      ring
    · simp only [anchorVertex, offSetCol, getCoordinatesFromPixel, nCols, centerCol,
        PIXEL_SIZE]
      push_cast
      ring

/-- Pushing one triangle face appends 9 position floats, 9 center floats and
3 tags, so it preserves the lockstep invariant. -/
theorem lockstep_pushFace (s : ℚ) (v : Vec3) (a b c : ℕ) (g : BufferData)
    (h : lockstep g) : lockstep (pushFace s v a b c g) := by
  obtain ⟨h1, h2, h3⟩ := h
  simp only [lockstep, pushFace, List.length_append, List.length_cons,
    List.length_nil]
  omega

/-- Pushing one quad (two faces) preserves the lockstep invariant. -/
theorem lockstep_pushQuad (s : ℚ) (v : Vec3) (g : BufferData)
    (h : lockstep g) : lockstep (pushQuad s v g) :=
  lockstep_pushFace s v 2 3 1 _ (lockstep_pushFace s v 0 2 1 g h)

/-- A left fold preserves any invariant its step function preserves. -/
theorem foldl_preserves {α β : Type} (P : β → Prop) (f : β → α → β)
    (hf : ∀ b a, P b → P (f b a)) :
    ∀ (l : List α) (b : β), P b → P (List.foldl f b l)
  | [], _, hb => hb
  | x :: xs, b, hb => foldl_preserves P f hf xs (f b x) (hf b x hb)

/-- C5: after the single build pass over the whole grid, every batch's
buffers are in lockstep: the position and center lists have equal length,
three floats per vertex with one corner tag per vertex
(`len positions = len centers = 3 * len indices`), and the tag count is a
multiple of 3 (whole triangles only). -/
theorem build_pass_lockstep (grid : List (List ℕ)) (key : ℕ × ℤ) :
    lockstep (addColorVertices grid emptyBatches key) ∧
    (addColorVertices grid emptyBatches key).indices.length % 3 = 0 := by
  have hempty : ∀ k, lockstep (emptyBatches k) :=
    fun _ => ⟨rfl, rfl, rfl⟩
  have hadd : ∀ colorIndex row col v (m : BatchMap),
      (∀ k, lockstep (m k)) → ∀ k, lockstep (addColorVertex colorIndex row col v m k) := by
    intro colorIndex row col v m hm k
    simp only [addColorVertex]
    split
    · exact lockstep_pushQuad _ _ _ (hm _)
    · exact hm k
  have hall : ∀ k, lockstep (addColorVertices grid emptyBatches k) := by
    simp only [addColorVertices]
    refine foldl_preserves (fun m : BatchMap => ∀ k, lockstep (m k)) _ ?_ _ _ hempty
    intro m row hm
    refine foldl_preserves (fun m2 : BatchMap => ∀ k, lockstep (m2 k)) _ ?_ _ _ hm
    intro m2 col hm2
    exact hadd _ _ _ _ _ hm2
  exact ⟨hall key, (hall key).2.2⟩

/-- Entry-by-entry description of the position buffer written by
`updateBufferGeometry`: entry `k` belongs to vertex `j = k / 3`; its x and y
components come from `commitXY`, its z component is the old entry. -/
theorem updateBufferGeometry_positions_get (size : ℚ) (b : BufferData) (k : ℕ)
    (hk : k < b.positions.length) :
    (updateBufferGeometry size b).positions[k]? = some (
      let j := k / 3
      let xy := commitXY size (b.centers.getD (3 * j) F32.nan)
        (b.centers.getD (3 * j + 1) F32.nan) b.indices[j]?
      if k % 3 = 0 then xy.1
      else if k % 3 = 1 then xy.2
      else b.positions.getD k F32.nan) := by
  simp only [updateBufferGeometry, List.getElem?_map, List.getElem?_range hk,
    Option.map_some']

/-- C4: for every vertex `j` of a batch, the settle-time geometry commit
rewrites the vertex's x and y from the stored anchor center `(cx, cy)` and
the current clamped `size` by exactly the corner sign table: tag 0 gives
`(cx - size/2, cy + size/2)`, tag 1 `(cx + size/2, cy + size/2)`, tag 2
`(cx - size/2, cy - size/2)`, tag 3 `(cx + size/2, cy - size/2)`. -/
theorem updateBufferGeometry_corner_table (size : ℚ) (b : BufferData) (j : ℕ)
    (cx cy : ℚ) (t : ℕ)
    (hx : b.centers[3 * j]? = some (F32.val cx))
    (hy : b.centers[3 * j + 1]? = some (F32.val cy))
    (ht : b.indices[j]? = some t)
    (hp : 3 * j + 1 < b.positions.length) :
    (t = 0 →
      (updateBufferGeometry size b).positions[3 * j]? =
        some (F32.val (cx - 1/2 * size)) ∧
      (updateBufferGeometry size b).positions[3 * j + 1]? =
        some (F32.val (cy + 1/2 * size))) ∧
    (t = 1 →
      (updateBufferGeometry size b).positions[3 * j]? =
        some (F32.val (cx + 1/2 * size)) ∧
      (updateBufferGeometry size b).positions[3 * j + 1]? =
        some (F32.val (cy + 1/2 * size))) ∧
    (t = 2 →
      (updateBufferGeometry size b).positions[3 * j]? =
        some (F32.val (cx - 1/2 * size)) ∧
      (updateBufferGeometry size b).positions[3 * j + 1]? =
        some (F32.val (cy - 1/2 * size))) ∧
    (t = 3 →
      (updateBufferGeometry size b).positions[3 * j]? =
        some (F32.val (cx + 1/2 * size)) ∧
      (updateBufferGeometry size b).positions[3 * j + 1]? =
        some (F32.val (cy - 1/2 * size))) := by
  have h0 : 3 * j < b.positions.length := by omega
  have e0 := updateBufferGeometry_positions_get size b (3 * j) h0
  have e1 := updateBufferGeometry_positions_get size b (3 * j + 1) hp
  have hj0 : 3 * j / 3 = j := by omega
  have hm0 : 3 * j % 3 = 0 := by omega
  have hj1 : (3 * j + 1) / 3 = j := by omega
  have hm1 : (3 * j + 1) % 3 = 1 := by omega
  simp only [hj0, hm0, List.getD_eq_getElem?_getD, hx, hy, ht, Option.getD_some,
    reduceIte] at e0
  simp only [hj1, hm1, List.getD_eq_getElem?_getD, hx, hy, ht, Option.getD_some,
    reduceIte] at e1
  refine ⟨fun h => ?_, fun h => ?_, fun h => ?_, fun h => ?_⟩ <;> subst h <;>
    simp only [commitXY, F32.add, F32.sub, reduceIte] at e0 e1 <;>
    exact ⟨e0, e1⟩

/-- Witness for `updateBufferGeometry_corner_table`: one vertex with tag 0,
center `(1, 2)` and size `10` gets position `(1 - 5, 2 + 5)`. -/
theorem updateBufferGeometry_corner_table_witness :
    (updateBufferGeometry 10 ⟨[F32.val 0, F32.val 0, F32.val 0],
        [F32.val 1, F32.val 2, F32.val 0], [0]⟩).positions[3 * 0]? =
      some (F32.val (1 - 1/2 * 10)) ∧
    (updateBufferGeometry 10 ⟨[F32.val 0, F32.val 0, F32.val 0],
        [F32.val 1, F32.val 2, F32.val 0], [0]⟩).positions[3 * 0 + 1]? =
      some (F32.val (2 + 1/2 * 10)) :=
  (updateBufferGeometry_corner_table 10 ⟨[F32.val 0, F32.val 0, F32.val 0],
      [F32.val 1, F32.val 2, F32.val 0], [0]⟩ 0 1 2 0 rfl rfl rfl
    (by simp)).1 rfl

/-- C10: the geometry commit touches only the x and y components of the
position buffer: the center buffer, the corner-tag buffer, the position
buffer's length, and every z component (`k % 3 = 2`) are unchanged. -/
theorem updateBufferGeometry_only_xy (size : ℚ) (b : BufferData) :
    (updateBufferGeometry size b).centers = b.centers ∧
    (updateBufferGeometry size b).indices = b.indices ∧
    (updateBufferGeometry size b).positions.length = b.positions.length ∧
    ∀ k, k < b.positions.length → k % 3 = 2 →
      (updateBufferGeometry size b).positions[k]? = b.positions[k]? := by
  refine ⟨rfl, rfl, ?_, ?_⟩
  · simp [updateBufferGeometry]
  · intro k hk hm2
    have e := updateBufferGeometry_positions_get size b k hk
    simp only [hm2, List.getD_eq_getElem?_getD, List.getElem?_eq_getElem hk,
      Option.getD_some, reduceIte] at e
    rw [e, List.getElem?_eq_getElem hk]
    norm_num

/-- Witness for `updateBufferGeometry_only_xy`: the z entry (`k = 2`) of a
one-vertex batch survives the commit. -/
theorem updateBufferGeometry_only_xy_witness :
    (updateBufferGeometry 10 ⟨[F32.val 1, F32.val 2, F32.val 3],
        [F32.val 0, F32.val 0, F32.val 0], [1]⟩).positions[2]? =
      (⟨[F32.val 1, F32.val 2, F32.val 3],
        [F32.val 0, F32.val 0, F32.val 0], [1]⟩ : BufferData).positions[2]? :=
  (updateBufferGeometry_only_xy 10 ⟨[F32.val 1, F32.val 2, F32.val 3],
      [F32.val 0, F32.val 0, F32.val 0], [1]⟩).2.2.2 2 (by simp) (by omega)
